import Mathlib

/-!
Verification of the two-hop chat relay: an Edge Relay ("proxy") that applies
header-only policy and an in-enclave Body Processor ("function") that rewrites
the JSON chat body.  Each Go handler is embedded shallowly: JSON bodies become
an inductive value type, header maps become optional string fields and the
empty string stands for an absent header (the semantics of Go's
http.Header.Get), and each handler becomes a pure function from a request and
a configuration to an outcome value that records either the terminal HTTP
error or the upstream request that is issued.
-/

namespace SystemPromptFunctions

/-- JSON values as decoded by encoding/json into a generic value
(map, array, string, number, bool, null).  Numbers are modelled as integers;
none of the handlers inspects a numeric field. -/
inductive Json where
  | null : Json
  | bool (b : Bool) : Json
  | num (n : Int) : Json
  | str (s : String) : Json
  | arr (xs : List Json) : Json
  | obj (kvs : List (String × Json)) : Json

/-- First-match lookup in a decoded JSON object, the read `reqBody[k]`. -/
def lookupKey : List (String × Json) → String → Option Json
  | [], _ => none
  | (k, v) :: rest, key => if k = key then some v else lookupKey rest key

/-- The write `reqBody[k] = v` on a decoded JSON object: replace the value at
an existing key, or add the key when absent. -/
def setKey (l : List (String × Json)) (key : String) (v : Json) :
    List (String × Json) :=
  if l.any (fun p => p.1 = key) then
    l.map (fun p => if p.1 = key then (key, v) else p)
  else
    l ++ [(key, v)]

/-- Strip `pat` from the front of `s`: `some rem` when `s = pat ++ rem`,
`none` otherwise. -/
def stripPat : List Char → List Char → Option (List Char)
  | [], s => some s
  | _ :: _, [] => none
  | p :: ps, c :: cs => if p = c then stripPat ps cs else none

/-- One scan of Go's strings.ReplaceAll over a character list: at each
position, if the (non-empty) pattern starts here, emit the replacement and
continue after the pattern, else keep the character and move on.  The fuel
argument (at least the length of the input) makes the recursion structural. -/
def replaceAllFuel (pat rep : List Char) : Nat → List Char → List Char
  | _, [] => []
  | 0, s => s
  | fuel + 1, c :: rest =>
      match stripPat pat (c :: rest) with
      | some rem => rep ++ replaceAllFuel pat rep fuel rem
      | none => c :: replaceAllFuel pat rep fuel rest

/-- Replace every non-overlapping occurrence of `pat` in `s` by `rep`,
scanning left to right. -/
def charsReplaceAll (pat rep s : List Char) : List Char :=
  replaceAllFuel pat rep s.length s

/-- Go's strings.ReplaceAll for a non-empty pattern (the only use in this
program is the constant placeholder): replace every non-overlapping
occurrence of `pat`, scanning left to right. -/
def goReplaceAll (s pat rep : String) : String :=
  String.mk (charsReplaceAll pat.data rep.data s.data)

/-- Go's http.Header.Get: the header value, or the empty string when the
header is absent. -/
def headerGet (h : Option String) : String := h.getD ""

/-- src/function/main.go line 16: the built-in prompt template. -/
def defaultSystemPrompt : String :=
  "You are a helpful assistant. Always respond in {{LANGUAGE}}."

/-- src/function/main.go line 17. -/
def maxLanguageLen : Nat := 64

/-- The placeholder token substituted in the prompt template. -/
def languagePlaceholder : String := "{{LANGUAGE}}"

/-- An ASCII letter, the character class [a-zA-Z]. -/
def isAsciiLetter (c : Char) : Bool :=
  ('a' ≤ c && c ≤ 'z') || ('A' ≤ c && c ≤ 'Z')

/-- src/function/main.go line 20: whether languageRegex, anchored
^[a-zA-Z][a-zA-Z \-]*$, matches the whole string: a leading ASCII letter
followed by ASCII letters, spaces and hyphens. -/
def languageRegexMatch (s : String) : Bool :=
  match s.data with
  | [] => false
  | c :: cs =>
      isAsciiLetter c &&
      cs.all (fun d => isAsciiLetter d || d = ' ' || d = '-')

/-- Environment configuration read by the Body Processor.  Go's os.Getenv
returns the empty string for an unset variable, so each field is a string and
the empty string means unset. -/
structure FnConfig where
  systemPromptTemplate : String
  tinfoilModel : String
  inferenceURL : String
  apiKey : String
deriving DecidableEq, Repr

/-- src/function/main.go lines 67-72: pick the template (built-in default when
the environment variable is unset) and substitute the validated language for
every occurrence of the placeholder. -/
def renderPrompt (cfg : FnConfig) (language : String) : String :=
  let tpl := if cfg.systemPromptTemplate = "" then defaultSystemPrompt
             else cfg.systemPromptTemplate
  goReplaceAll tpl languagePlaceholder language

/-- src/function/main.go line 75: the type assertion
`messages, _ := reqBody["messages"].([]interface{})` — an absent or non-array
field degrades to the empty list. -/
def messagesAsArray : Option Json → List Json
  | some (Json.arr xs) => xs
  | _ => []

/-- src/function/main.go lines 74-85: prepend the system message built from
the rendered prompt, then overwrite the model field when the override is
configured (non-empty). -/
def transformBody (cfg : FnConfig) (language : String)
    (body : List (String × Json)) : List (String × Json) :=
  let messages := messagesAsArray (lookupKey body "messages")
  let systemMessage : Json :=
    Json.obj [("role", Json.str "system"),
              ("content", Json.str (renderPrompt cfg language))]
  let withMessages := setKey body "messages" (Json.arr (systemMessage :: messages))
  if cfg.tinfoilModel ≠ "" then
    setKey withMessages "model" (Json.str cfg.tinfoilModel)
  else
    withMessages

/-- A chat request as the Body Processor handler sees it.  The body is the
already-decoded JSON object, with `none` standing for bytes that fail to parse
as a JSON object. -/
structure FnRequest where
  method : String
  xLanguage : Option String
  xAllowedModels : Option String
  accept : Option String
  body : Option (List (String × Json))

/-- The upstream request the Body Processor issues to the inference backend
(src/function/main.go lines 107-119). -/
structure FnUpstream where
  method : String
  url : String
  body : List (String × Json)
  contentType : String
  authorization : String
  accept : Option String

/-- Outcome of one Body Processor chat request: a terminal HTTP error
response with no upstream request, or an upstream request issued to the
inference backend. -/
inductive FnOutcome where
  | reject (status : Nat) (message : String) : FnOutcome
  | forward (up : FnUpstream) : FnOutcome

/-- Go's strings.TrimRight(s, "/"): drop trailing slashes. -/
def trimRightSlash (s : String) : String :=
  String.mk (s.data.reverse.dropWhile (fun c => c = '/')).reverse

/-- src/function/main.go chatHandler (lines 34-128), up to the issuing of the
upstream request: method check, language validation with default, JSON parse,
prompt rendering, body transform, configuration checks, upstream construction.
The transport call itself and the response relay are modelled separately. -/
def chatHandler (cfg : FnConfig) (r : FnRequest) : FnOutcome :=
  if r.method ≠ "POST" then
    FnOutcome.reject 405 "Method not allowed"
  else
    let language0 := headerGet r.xLanguage
    let language := if language0 = "" then "English" else language0
    if maxLanguageLen < language.utf8ByteSize ∨ languageRegexMatch language = false then
      FnOutcome.reject 400 "Invalid X-Language header"
    else
      match r.body with
      | none => FnOutcome.reject 400 "Invalid JSON body"
      | some reqBody =>
          let modifiedBody := transformBody cfg language reqBody
          if cfg.inferenceURL = "" then
            FnOutcome.reject 500 "TINFOIL_INFERENCE_URL not configured"
          else if cfg.apiKey = "" then
            FnOutcome.reject 500 "TINFOIL_API_KEY not configured"
          else
            FnOutcome.forward
              { method := "POST"
                url := trimRightSlash cfg.inferenceURL ++ "/v1/chat/completions"
                body := modifiedBody
                contentType := "application/json"
                authorization := "Bearer " ++ cfg.apiKey
                accept := if headerGet r.accept = "" then none else some (headerGet r.accept) }

/-- src/proxy/main.go line 19: the comma-separated allow-lists set by the
policy function.  The paid list names both models, the free list one. -/
def paidAllowedModels : String := "gpt-oss-120b,kimi-k2-5"

/-- The single free-tier model allow-list. -/
def freeAllowedModels : String := "gpt-oss-120b"

/-- src/proxy/main.go lines 156-164: map the X-User-Tier header value to the
X-Allowed-Models header value set on the upstream request. -/
def setAllowedModelsHeader (userTier : String) : String :=
  if userTier = "paid" then paidAllowedModels else freeAllowedModels

/-- An inbound request as the Edge Relay chat handler sees it.  The body is an
opaque byte sequence (ciphertext), never parsed. -/
structure ProxyRequest where
  method : String
  path : String
  enclaveUrl : Option String
  accept : Option String
  userTier : Option String
  xLanguage : Option String
  ehbpEncapsulatedKey : Option String
  body : List Nat
deriving DecidableEq, Repr

/-- Environment configuration read by the Edge Relay; empty string means the
variable is unset, as with os.Getenv. -/
structure ProxyConfig where
  apiKey : String
deriving DecidableEq, Repr

/-- The upstream request the Edge Relay issues to the function enclave
(src/proxy/main.go lines 65-89). -/
structure ProxyUpstream where
  method : String
  url : String
  body : List Nat
  contentType : String
  accept : Option String
  authorization : Option String
  usageMetricsRequest : String
  ehbpEncapsulatedKey : Option String
  xLanguage : Option String
  xAllowedModels : String
deriving DecidableEq, Repr

/-- Outcome of one Edge Relay chat request: the CORS preflight response (204,
no body, no upstream), a terminal HTTP error with no upstream request, or an
upstream request issued to the function enclave. -/
inductive ProxyOutcome where
  | preflight : ProxyOutcome
  | reject (status : Nat) (message : String) : ProxyOutcome
  | forward (up : ProxyUpstream) : ProxyOutcome
deriving DecidableEq, Repr

/-- src/proxy/main.go proxyHandler (lines 43-91), up to the issuing of the
upstream request: OPTIONS short-circuits to the preflight response, a missing
X-Tinfoil-Enclave-Url header is a 400, and otherwise an upstream POST is
built from the destination base URL and the inbound path, reusing the inbound
body and carrying the policy, encryption and metering headers. -/
def proxyHandler (cfg : ProxyConfig) (r : ProxyRequest) : ProxyOutcome :=
  if r.method = "OPTIONS" then
    ProxyOutcome.preflight
  else
    let upstreamBase := headerGet r.enclaveUrl
    if upstreamBase = "" then
      ProxyOutcome.reject 400 "X-Tinfoil-Enclave-Url header required"
    else
      ProxyOutcome.forward
        { method := "POST"
          url := upstreamBase ++ r.path
          body := r.body
          contentType := "application/json"
          accept := if headerGet r.accept = "" then none else some (headerGet r.accept)
          authorization :=
            if cfg.apiKey = "" then none else some ("Bearer " ++ cfg.apiKey)
          usageMetricsRequest := "true"
          ehbpEncapsulatedKey :=
            if headerGet r.ehbpEncapsulatedKey = "" then none
            else some (headerGet r.ehbpEncapsulatedKey)
          xLanguage :=
            if headerGet r.xLanguage = "" then none else some (headerGet r.xLanguage)
          xAllowedModels := setAllowedModelsHeader (headerGet r.userTier) }

/-- An upstream HTTP response as read back by either relay: status, the
response headers the code inspects, and the body as the sequence of chunks
successive reads of the body return. -/
structure UpstreamResponse where
  status : Nat
  contentType : Option String
  transferEncoding : Option String
  ehbpResponseNonce : Option String
  bodyChunks : List (List Nat)
deriving DecidableEq, Repr

/-- One observable action on the caller-side response writer. -/
inductive RelayEvent where
  | setHeader (name value : String) : RelayEvent
  | delHeader (name : String) : RelayEvent
  | writeStatus (code : Nat) : RelayEvent
  | writeChunk (bytes : List Nat) : RelayEvent
  | flush : RelayEvent
deriving DecidableEq, Repr

/-- The copy loop of io.Copy through flushWriter: each chunk read from the
upstream body is written once, in order, and flushed
(src/function/main.go lines 140-149 and 159-163; src/proxy/main.go lines
117-126 and 139-143). -/
def streamEvents : List (List Nat) → List RelayEvent
  | [] => []
  | c :: cs => RelayEvent.writeChunk c :: RelayEvent.flush :: streamEvents cs

/-- src/function/main.go lines 130-138: header mirroring and status write
performed by the Body Processor before the body copy starts. -/
def fnHeaderEvents (resp : UpstreamResponse) : List RelayEvent :=
  (if headerGet resp.contentType = "" then []
   else [RelayEvent.setHeader "Content-Type" (headerGet resp.contentType)]) ++
  (if headerGet resp.transferEncoding = "" then []
   else [RelayEvent.setHeader "Transfer-Encoding" (headerGet resp.transferEncoding),
         RelayEvent.delHeader "Content-Length"]) ++
  [RelayEvent.writeStatus resp.status]

/-- src/proxy/main.go lines 99-115: the Edge Relay additionally copies the
encryption response-nonce header before mirroring Content-Type and
Transfer-Encoding and writing the status. -/
def proxyHeaderEvents (resp : UpstreamResponse) : List RelayEvent :=
  (if headerGet resp.ehbpResponseNonce = "" then []
   else [RelayEvent.setHeader "Ehbp-Response-Nonce" (headerGet resp.ehbpResponseNonce)]) ++
  (if headerGet resp.contentType = "" then []
   else [RelayEvent.setHeader "Content-Type" (headerGet resp.contentType)]) ++
  (if headerGet resp.transferEncoding = "" then []
   else [RelayEvent.setHeader "Transfer-Encoding" (headerGet resp.transferEncoding),
         RelayEvent.delHeader "Content-Length"]) ++
  [RelayEvent.writeStatus resp.status]

/-- The full event trace the Body Processor produces while relaying an
upstream response to its caller. -/
def fnRelayResponse (resp : UpstreamResponse) : List RelayEvent :=
  fnHeaderEvents resp ++ streamEvents resp.bodyChunks

/-- The full event trace the Edge Relay produces while relaying an upstream
response to its caller. -/
def proxyRelayResponse (resp : UpstreamResponse) : List RelayEvent :=
  proxyHeaderEvents resp ++ streamEvents resp.bodyChunks

/-- The bytes delivered to the caller by a trace: the concatenation of all
writeChunk payloads in order. -/
def writtenBytes : List RelayEvent → List Nat
  | [] => []
  | RelayEvent.writeChunk c :: es => c ++ writtenBytes es
  | _ :: es => writtenBytes es

/-- Whether an event touches the body stream (write or flush), as opposed to
fixing the status or a header. -/
def isBodyEvent : RelayEvent → Bool
  | RelayEvent.writeChunk _ => true
  | RelayEvent.flush => true
  | _ => false

/-- The X-Allowed-Models header of the upstream request, when one is issued. -/
def forwardedAllowedModels : ProxyOutcome → Option String
  | ProxyOutcome.forward up => some up.xAllowedModels
  | _ => none

/-- The HTTP method of the upstream request, when one is issued. -/
def upstreamMethodOf : ProxyOutcome → Option String
  | ProxyOutcome.forward up => some up.method
  | _ => none

/-- The body of the upstream request, when one is issued. -/
def upstreamBodyOf : ProxyOutcome → Option (List Nat)
  | ProxyOutcome.forward up => some up.body
  | _ => none

/-- Whether the Edge Relay outcome issued an upstream request. -/
def isForwarded : ProxyOutcome → Bool
  | ProxyOutcome.forward _ => true
  | _ => false

/-- The JSON body of the Body Processor upstream request, when one is
issued. -/
def fnForwardedBody : FnOutcome → Option (List (String × Json))
  | FnOutcome.forward up => some up.body
  | _ => none

/-- Whether the Body Processor outcome issued an upstream request. -/
def fnIsForwarded : FnOutcome → Bool
  | FnOutcome.forward _ => true
  | _ => false

/-- The model field of the body the Body Processor forwards, when an
upstream request is issued. -/
def fnForwardedModel : FnOutcome → Option Json
  | FnOutcome.forward up => lookupKey up.body "model"
  | _ => none

/-! Concrete inputs used by counterexamples and failing-input evaluations. -/

/-- A function configuration with the model override set to kimi-k2-5. -/
def overrideCfg : FnConfig :=
  { systemPromptTemplate := ""
    tinfoilModel := "kimi-k2-5"
    inferenceURL := "https://inference.tinfoil.sh"
    apiKey := "key" }

/-- A chat body declaring model gpt-oss-120b and an empty messages array. -/
def overrideBody : List (String × Json) :=
  [("model", Json.str "gpt-oss-120b"), ("messages", Json.arr [])]

/-- A function configuration with no model override. -/
def plainFnCfg : FnConfig :=
  { systemPromptTemplate := ""
    tinfoilModel := ""
    inferenceURL := "https://inference.tinfoil.sh"
    apiKey := "key" }

/-- A POST chat request whose decrypted body declares the model deepseek-r1
while the X-Allowed-Models header allow-list is exactly gpt-oss-120b. -/
def disallowedModelRequest : FnRequest :=
  { method := "POST"
    xLanguage := none
    xAllowedModels := some "gpt-oss-120b"
    accept := none
    body := some [("model", Json.str "deepseek-r1"), ("messages", Json.arr [])] }

/-- An Edge Relay configuration with no API key set. -/
def plainProxyCfg : ProxyConfig := { apiKey := "" }

/-- A GET request to the Edge Relay chat route carrying a destination
enclave header and an opaque body. -/
def getChatRequest : ProxyRequest :=
  { method := "GET"
    path := "/v1/chat/completions"
    enclaveUrl := some "https://fn.example"
    accept := none
    userTier := none
    xLanguage := none
    ehbpEncapsulatedKey := none
    body := [1, 2, 3] }

/-- An OPTIONS request to the Edge Relay chat route. -/
def optionsChatRequest : ProxyRequest :=
  { method := "OPTIONS"
    path := "/v1/chat/completions"
    enclaveUrl := none
    accept := none
    userTier := none
    xLanguage := none
    ehbpEncapsulatedKey := none
    body := [] }

/-- A POST chat request from a paid-tier user. -/
def paidChatRequest : ProxyRequest :=
  { method := "POST"
    path := "/v1/chat/completions"
    enclaveUrl := some "https://fn.example"
    accept := none
    userTier := some "paid"
    xLanguage := none
    ehbpEncapsulatedKey := none
    body := [7] }

/-- A POST chat request with no X-User-Tier header. -/
def freeChatRequest : ProxyRequest :=
  { method := "POST"
    path := "/v1/chat/completions"
    enclaveUrl := some "https://fn.example"
    accept := none
    userTier := none
    xLanguage := none
    ehbpEncapsulatedKey := none
    body := [7] }

/-- A POST chat request lacking the X-Tinfoil-Enclave-Url header. -/
def noEnclaveRequest : ProxyRequest :=
  { method := "POST"
    path := "/v1/chat/completions"
    enclaveUrl := none
    accept := none
    userTier := none
    xLanguage := none
    ehbpEncapsulatedKey := none
    body := [9] }

/-- A POST chat request to the Body Processor carrying an invalid
X-Language header value. -/
def invalidLanguageRequest : FnRequest :=
  { method := "POST"
    xLanguage := some "Fr3nch"
    xAllowedModels := none
    accept := none
    body := some [("messages", Json.arr [])] }

/-- A POST chat request to the Body Processor with no X-Language header. -/
def defaultLanguageRequest : FnRequest :=
  { method := "POST"
    xLanguage := none
    xAllowedModels := none
    accept := none
    body := some [("model", Json.str "gpt-oss-120b"), ("messages", Json.arr [])] }

/-- A sample streamed upstream response with three body chunks. -/
def sampleResponse : UpstreamResponse :=
  { status := 200
    contentType := some "text/event-stream"
    transferEncoding := some "chunked"
    ehbpResponseNonce := some "nonce"
    bodyChunks := [[1, 2], [], [3, 4, 5]] }

/-! Helper lemmas about the JSON-object operations. -/

theorem lookupKey_map_replace (l : List (String × Json)) (k : String) (v : Json)
    (h : l.any (fun p => p.1 = k) = true) :
    lookupKey (l.map fun p => if p.1 = k then (k, v) else p) k = some v := by
  induction l with
  | nil => simp at h
  | cons p rest ih =>
      simp only [List.map_cons]
      by_cases hp : p.1 = k
      · rw [if_pos hp]
        simp [lookupKey]
      · rw [if_neg hp]
        have hr : rest.any (fun p => p.1 = k) = true := by
          simpa [List.any_cons, hp] using h
        simp [lookupKey, hp, ih hr]

theorem lookupKey_map_ne (l : List (String × Json)) (k : String) (v : Json)
    (q : String) (hne : q ≠ k) :
    lookupKey (l.map fun p => if p.1 = k then (k, v) else p) q = lookupKey l q := by
  induction l with
  | nil => rfl
  | cons p rest ih =>
      simp only [List.map_cons]
      by_cases hp : p.1 = k
      · rw [if_pos hp]
        have hkq : ¬(k = q) := fun e => hne e.symm
        have hpq : ¬(p.1 = q) := by rw [hp]; exact hkq
        simp [lookupKey, hkq, hpq, ih]
      · rw [if_neg hp]
        by_cases hq : p.1 = q
        · simp [lookupKey, hq]
        · simp [lookupKey, hq, ih]

theorem lookupKey_append (l m : List (String × Json)) (k : String) :
    lookupKey (l ++ m) k =
      (match lookupKey l k with
       | some v => some v
       | none => lookupKey m k) := by
  induction l with
  | nil => simp [lookupKey]
  | cons p rest ih =>
      by_cases hp : p.1 = k
      · simp [lookupKey, hp]
      · simp [lookupKey, hp, ih]

theorem lookupKey_eq_none_of_not_mem (l : List (String × Json)) (k : String)
    (h : ∀ p ∈ l, p.1 ≠ k) : lookupKey l k = none := by
  induction l with
  | nil => rfl
  | cons p rest ih =>
      have hp := h p (by simp)
      simp [lookupKey, hp, ih (fun q hq => h q (by simp [hq]))]

theorem lookupKey_setKey_self (l : List (String × Json)) (k : String) (v : Json) :
    lookupKey (setKey l k v) k = some v := by
  unfold setKey
  split
  · exact lookupKey_map_replace l k v (by assumption)
  · rename_i h
    rw [lookupKey_append]
    have hnone : lookupKey l k = none := by
      refine lookupKey_eq_none_of_not_mem l k (fun p hp hk => h ?_)
      rw [List.any_eq_true]
      exact ⟨p, hp, by simp [hk]⟩
    simp [hnone, lookupKey]

theorem lookupKey_setKey_ne (l : List (String × Json)) (k : String) (v : Json)
    (q : String) (hne : q ≠ k) :
    lookupKey (setKey l k v) q = lookupKey l q := by
  unfold setKey
  split
  · exact lookupKey_map_ne l k v q hne
  · rw [lookupKey_append]
    have hkq : ¬(k = q) := fun e => hne e.symm
    have htail : lookupKey [(k, v)] q = none := by
      simp [lookupKey, hkq]
    cases hcase : lookupKey l q with
    | some w => simp [hcase]
    | none => simp [hcase, htail]

/-! Helper lemmas about the substring-replacement scan. -/

theorem stripPat_eq_some_iff (pat s rem : List Char) :
    stripPat pat s = some rem ↔ s = pat ++ rem := by
  induction pat generalizing s with
  | nil => simp [stripPat]
  | cons p ps ih =>
      cases s with
      | nil => simp [stripPat]
      | cons c cs =>
          by_cases h : p = c
          · subst h
            simp [stripPat, ih]
          · simp only [stripPat, if_neg h]
            constructor
            · intro hx
              exact Option.noConfusion hx
            · intro hx
              injection hx with h1 _
              exact absurd h1.symm h

theorem replaceAllFuel_congr (pat rep : List Char) (hp : pat ≠ []) :
    ∀ fuel fuel' s, s.length ≤ fuel → s.length ≤ fuel' →
      replaceAllFuel pat rep fuel s = replaceAllFuel pat rep fuel' s := by
  intro fuel
  induction fuel with
  | zero =>
      intro fuel' s hs _
      have : s = [] := List.length_eq_zero.mp (Nat.le_zero.mp hs)
      subst this
      cases fuel' <;> rfl
  | succ f ih =>
      intro fuel' s hs hs'
      cases s with
      | nil => cases fuel' <;> rfl
      | cons c rest =>
          cases fuel' with
          | zero => simp at hs'
          | succ f' =>
              simp only [replaceAllFuel]
              cases hsp : stripPat pat (c :: rest) with
              | some rem =>
                  have hrem : c :: rest = pat ++ rem :=
                    (stripPat_eq_some_iff pat (c :: rest) rem).mp hsp
                  have hlen : rem.length < (c :: rest).length := by
                    obtain ⟨p, ps, rfl⟩ := List.exists_cons_of_ne_nil hp
                    rw [hrem]
                    simp only [List.length_cons, List.length_append]
                    omega
                  simp only [List.length_cons] at hs hs' hlen
                  dsimp only
                  rw [ih f' rem (by omega) (by omega)]
              | none =>
                  simp only [List.length_cons] at hs hs'
                  dsimp only
                  rw [ih f' rest (by omega) (by omega)]

theorem charsReplaceAll_nil (pat rep : List Char) :
    charsReplaceAll pat rep [] = [] := rfl

theorem replaceAllFuel_eq_charsReplaceAll (pat rep : List Char) (hp : pat ≠ [])
    (s : List Char) (fuel : Nat) (h : s.length ≤ fuel) :
    replaceAllFuel pat rep fuel s = charsReplaceAll pat rep s :=
  replaceAllFuel_congr pat rep hp fuel s.length s h (le_refl _)

theorem charsReplaceAll_cons_match (pat rep t : List Char) (hp : pat ≠ []) :
    charsReplaceAll pat rep (pat ++ t) = rep ++ charsReplaceAll pat rep t := by
  obtain ⟨p, ps, rfl⟩ := List.exists_cons_of_ne_nil hp
  show replaceAllFuel (p :: ps) rep ((p :: ps ++ t).length) (p :: (ps ++ t)) = _
  have hsp : stripPat (p :: ps) (p :: (ps ++ t)) = some t :=
    (stripPat_eq_some_iff (p :: ps) (p :: (ps ++ t)) t).mpr rfl
  simp only [List.length_cons, replaceAllFuel, hsp]
  congr 1
  refine replaceAllFuel_eq_charsReplaceAll (p :: ps) rep hp t _ ?_
  simp [List.length_append]

theorem charsReplaceAll_cons_no_match (pat rep : List Char) (c : Char)
    (rest : List Char) (h : ∀ t, c :: rest ≠ pat ++ t) :
    charsReplaceAll pat rep (c :: rest) = c :: charsReplaceAll pat rep rest := by
  have hsp : stripPat pat (c :: rest) = none := by
    cases hcase : stripPat pat (c :: rest) with
    | none => rfl
    | some rem =>
        exact absurd ((stripPat_eq_some_iff pat (c :: rest) rem).mp hcase) (h rem)
  show replaceAllFuel pat rep ((c :: rest).length) (c :: rest) = _
  simp only [List.length_cons, replaceAllFuel, hsp]
  rfl

/-! Helper lemmas about the streamed relay trace. -/

theorem writtenBytes_append (a b : List RelayEvent) :
    writtenBytes (a ++ b) = writtenBytes a ++ writtenBytes b := by
  induction a with
  | nil => rfl
  | cons e rest ih => cases e <;> simp [writtenBytes, ih]

theorem writtenBytes_streamEvents (cs : List (List Nat)) :
    writtenBytes (streamEvents cs) = cs.flatten := by
  induction cs with
  | nil => rfl
  | cons c rest ih => simp [streamEvents, writtenBytes, ih]

theorem fnHeaderEvents_no_body (resp : UpstreamResponse) :
    ∀ e ∈ fnHeaderEvents resp, isBodyEvent e = false := by
  intro e he
  unfold fnHeaderEvents at he
  rcases List.mem_append.mp he with h | h
  · rcases List.mem_append.mp h with h' | h'
    · split at h'
      · simp at h'
      · simp at h'
        subst h'
        rfl
    · split at h'
      · simp at h'
      · simp at h'
        rcases h' with rfl | rfl <;> rfl
  · simp at h
    subst h
    rfl

theorem proxyHeaderEvents_no_body (resp : UpstreamResponse) :
    ∀ e ∈ proxyHeaderEvents resp, isBodyEvent e = false := by
  intro e he
  unfold proxyHeaderEvents at he
  rcases List.mem_append.mp he with h | h
  · rcases List.mem_append.mp h with h1 | h1
    · rcases List.mem_append.mp h1 with h2 | h2
      · split at h2
        · simp at h2
        · simp at h2
          subst h2
          rfl
      · split at h2
        · simp at h2
        · simp at h2
          subst h2
          rfl
    · split at h1
      · simp at h1
      · simp at h1
        rcases h1 with rfl | rfl <;> rfl
  · simp at h
    subst h
    rfl

theorem streamEvents_all_body (cs : List (List Nat)) :
    ∀ e ∈ streamEvents cs, isBodyEvent e = true := by
  induction cs with
  | nil => intro e he; simp [streamEvents] at he
  | cons c rest ih =>
      intro e he
      rcases he with _ | ⟨_, h⟩
      · rfl
      · rcases h with _ | ⟨_, h2⟩
        · rfl
        · exact ih e (by assumption)

theorem writeStatus_mem_fnHeaderEvents (resp : UpstreamResponse) :
    RelayEvent.writeStatus resp.status ∈ fnHeaderEvents resp := by
  unfold fnHeaderEvents
  simp

theorem writeStatus_mem_proxyHeaderEvents (resp : UpstreamResponse) :
    RelayEvent.writeStatus resp.status ∈ proxyHeaderEvents resp := by
  unfold proxyHeaderEvents
  simp

theorem writtenBytes_eq_nil (l : List RelayEvent)
    (h : ∀ e ∈ l, isBodyEvent e = false) : writtenBytes l = [] := by
  induction l with
  | nil => rfl
  | cons e rest ih =>
      have he := h e (by simp)
      have hr : ∀ x ∈ rest, isBodyEvent x = false := fun x hx => h x (by simp [hx])
      cases e with
      | writeChunk c => simp [isBodyEvent] at he
      | flush => simp [isBodyEvent] at he
      | setHeader n v => simpa [writtenBytes] using ih hr
      | delHeader n => simpa [writtenBytes] using ih hr
      | writeStatus c => simpa [writtenBytes] using ih hr

theorem length_le_utf8ByteSize (s : String) : s.length ≤ s.utf8ByteSize := by
  obtain ⟨cs⟩ := s
  simp only [String.utf8ByteSize_mk, String.length]
  induction cs with
  | nil => simp
  | cons c cs ih =>
      simp only [String.utf8Len_cons, List.length_cons]
      have := Char.utf8Size_pos c
      omega

/-! Claim theorems. -/

/-- C5: for every inbound chat-route request that the Edge Relay forwards,
the X-Allowed-Models header attached to the upstream request is the paid
allow-list exactly when X-User-Tier is "paid", the free allow-list for every
other value including an absent header, and no third value is possible. -/
theorem allowed_models_header_two_valued (cfg : ProxyConfig) (r : ProxyRequest)
    (hm : r.method ≠ "OPTIONS") (he : headerGet r.enclaveUrl ≠ "") :
    forwardedAllowedModels (proxyHandler cfg r) =
      some (setAllowedModelsHeader (headerGet r.userTier)) ∧
    (headerGet r.userTier = "paid" →
      forwardedAllowedModels (proxyHandler cfg r) = some paidAllowedModels) ∧
    (headerGet r.userTier ≠ "paid" →
      forwardedAllowedModels (proxyHandler cfg r) = some freeAllowedModels) ∧
    (forwardedAllowedModels (proxyHandler cfg r) = some paidAllowedModels ∨
      forwardedAllowedModels (proxyHandler cfg r) = some freeAllowedModels) ∧
    paidAllowedModels ≠ freeAllowedModels := by
  have hmain : forwardedAllowedModels (proxyHandler cfg r) =
      some (setAllowedModelsHeader (headerGet r.userTier)) := by
    unfold proxyHandler
    rw [if_neg hm]
    dsimp only
    rw [if_neg he]
    rfl
  refine ⟨hmain, ?_, ?_, ?_, by decide⟩
  · intro ht
    rw [hmain]
    unfold setAllowedModelsHeader
    rw [if_pos ht]
  · intro ht
    rw [hmain]
    unfold setAllowedModelsHeader
    rw [if_neg ht]
  · rw [hmain]
    unfold setAllowedModelsHeader
    by_cases ht : headerGet r.userTier = "paid"
    · exact Or.inl (by rw [if_pos ht])
    · exact Or.inr (by rw [if_neg ht])

/-- C5 witness: a paid-tier request gets the paid allow-list, a request with
no tier header gets the free allow-list. -/
theorem allowed_models_header_two_valued_witness :
    forwardedAllowedModels (proxyHandler plainProxyCfg paidChatRequest) =
      some paidAllowedModels ∧
    forwardedAllowedModels (proxyHandler plainProxyCfg freeChatRequest) =
      some freeAllowedModels :=
  ⟨(allowed_models_header_two_valued plainProxyCfg paidChatRequest
      (by decide) (by decide)).2.1 rfl,
   (allowed_models_header_two_valued plainProxyCfg freeChatRequest
      (by decide) (by decide)).2.2.1 (by decide)⟩

/-- C6: a non-OPTIONS chat-route request lacking the X-Tinfoil-Enclave-Url
header is answered with status 400 and no upstream request is issued. -/
theorem missing_enclave_header_rejected (cfg : ProxyConfig) (r : ProxyRequest)
    (hm : r.method ≠ "OPTIONS") (he : r.enclaveUrl = none) :
    proxyHandler cfg r =
      ProxyOutcome.reject 400 "X-Tinfoil-Enclave-Url header required" := by
  unfold proxyHandler
  rw [if_neg hm]
  dsimp only
  rw [he]
  rfl

/-- C6 witness: the concrete POST request without the enclave header is
rejected with 400. -/
theorem missing_enclave_header_rejected_witness :
    proxyHandler plainProxyCfg noEnclaveRequest =
      ProxyOutcome.reject 400 "X-Tinfoil-Enclave-Url header required" :=
  missing_enclave_header_rejected plainProxyCfg noEnclaveRequest (by decide) rfl

/-- C10: for every non-OPTIONS chat-route request, the handler's behavior is
independent of the inbound method, and whenever an upstream request is
issued it has method POST and reuses the inbound body. -/
theorem non_options_upstream_is_post (cfg : ProxyConfig) (r : ProxyRequest)
    (hm : r.method ≠ "OPTIONS") :
    (∀ m, m ≠ "OPTIONS" →
      proxyHandler cfg { r with method := m } = proxyHandler cfg r) ∧
    (headerGet r.enclaveUrl ≠ "" →
      upstreamMethodOf (proxyHandler cfg r) = some "POST" ∧
      upstreamBodyOf (proxyHandler cfg r) = some r.body) := by
  constructor
  · intro m hm'
    unfold proxyHandler
    rw [if_neg hm', if_neg hm]
  · intro he
    unfold proxyHandler
    rw [if_neg hm]
    dsimp only
    rw [if_neg he]
    exact ⟨rfl, rfl⟩

/-- C10 witness: the concrete GET request is forwarded upstream with method
POST and its own body. -/
theorem non_options_upstream_is_post_witness :
    upstreamMethodOf (proxyHandler plainProxyCfg getChatRequest) = some "POST" ∧
    upstreamBodyOf (proxyHandler plainProxyCfg getChatRequest) =
      some getChatRequest.body :=
  (non_options_upstream_is_post plainProxyCfg getChatRequest (by decide)).2
    (by decide)

/-- C3 counterexample: a GET request to the chat route (neither POST nor
OPTIONS) is not answered with method-not-allowed — the relay issues an
upstream request for it. -/
theorem chat_route_get_forwarded :
    getChatRequest.method ≠ "POST" ∧ getChatRequest.method ≠ "OPTIONS" ∧
    isForwarded (proxyHandler plainProxyCfg getChatRequest) = true :=
  ⟨by decide, by decide, rfl⟩

/-- C3 (amended): OPTIONS gets the CORS preflight response with no body and
no upstream request; a request of any other method is not rejected for its
method — it is handled exactly as the same request with method POST. -/
theorem chat_route_method_handling (cfg : ProxyConfig) (r : ProxyRequest) :
    (r.method = "OPTIONS" → proxyHandler cfg r = ProxyOutcome.preflight) ∧
    (r.method ≠ "OPTIONS" →
      proxyHandler cfg r = proxyHandler cfg { r with method := "POST" }) := by
  constructor
  · intro h
    unfold proxyHandler
    rw [if_pos h]
  · intro h
    unfold proxyHandler
    rw [if_neg h, if_neg (by decide : ¬("POST" = "OPTIONS"))]

/-- C3 witness: the concrete OPTIONS request gets the preflight response and
the concrete GET request is handled as a POST. -/
theorem chat_route_method_handling_witness :
    proxyHandler plainProxyCfg optionsChatRequest = ProxyOutcome.preflight ∧
    proxyHandler plainProxyCfg getChatRequest =
      proxyHandler plainProxyCfg { getChatRequest with method := "POST" } :=
  ⟨(chat_route_method_handling plainProxyCfg optionsChatRequest).1 rfl,
   (chat_route_method_handling plainProxyCfg getChatRequest).2 (by decide)⟩

/-- C4: a present (non-empty) X-Language value that exceeds 64 characters or
fails the ^[A-Za-z][A-Za-z \-]*$ pattern makes the Body Processor respond
400 with no upstream request. -/
theorem invalid_language_rejected (cfg : FnConfig) (r : FnRequest) (v : String)
    (hm : r.method = "POST") (hv : r.xLanguage = some v) (hne : v ≠ "")
    (hbad : maxLanguageLen < v.length ∨ languageRegexMatch v = false) :
    chatHandler cfg r = FnOutcome.reject 400 "Invalid X-Language header" := by
  unfold chatHandler
  rw [if_neg (by rw [hm]; exact fun h => h rfl)]
  dsimp only
  rw [hv]
  have hlang : (if headerGet (some v) = "" then "English" else headerGet (some v)) = v := by
    rw [show headerGet (some v) = v from rfl, if_neg hne]
  rw [hlang]
  have hcond : maxLanguageLen < v.utf8ByteSize ∨ languageRegexMatch v = false := by
    rcases hbad with hlen | hre
    · exact Or.inl (lt_of_lt_of_le hlen (length_le_utf8ByteSize v))
    · exact Or.inr hre
  rw [if_pos hcond]

/-- C4 witness: the value Fr3nch fails the pattern and the concrete request
carrying it is rejected with 400. -/
theorem invalid_language_rejected_witness :
    chatHandler plainFnCfg invalidLanguageRequest =
      FnOutcome.reject 400 "Invalid X-Language header" :=
  invalid_language_rejected plainFnCfg invalidLanguageRequest "Fr3nch"
    rfl rfl (by decide) (Or.inr (by decide))

/-- C7: when the model override is a non-empty string the forwarded body's
model field equals it, whatever the input said; when the override is unset
the input's model field is left unchanged. -/
theorem model_override_semantics (cfg : FnConfig) (language : String)
    (body : List (String × Json)) :
    (cfg.tinfoilModel ≠ "" →
      lookupKey (transformBody cfg language body) "model" =
        some (Json.str cfg.tinfoilModel)) ∧
    (cfg.tinfoilModel = "" →
      lookupKey (transformBody cfg language body) "model" =
        lookupKey body "model") := by
  constructor
  · intro h
    unfold transformBody
    dsimp only
    rw [if_pos h]
    exact lookupKey_setKey_self _ _ _
  · intro h
    unfold transformBody
    dsimp only
    rw [if_neg (fun hc => hc h)]
    exact lookupKey_setKey_ne _ _ _ _ (by decide)

/-- C7 witness: with override kimi-k2-5 the forwarded model is kimi-k2-5
although the input said gpt-oss-120b; with no override the model field is
unchanged. -/
theorem model_override_semantics_witness :
    lookupKey (transformBody overrideCfg "English" overrideBody) "model" =
      some (Json.str "kimi-k2-5") ∧
    lookupKey (transformBody plainFnCfg "English" overrideBody) "model" =
      lookupKey overrideBody "model" :=
  ⟨(model_override_semantics overrideCfg "English" overrideBody).1
     (by decide),
   (model_override_semantics plainFnCfg "English" overrideBody).2 rfl⟩

/-- C1 counterexample: with the model override configured, a body meeting the
claim's premise (messages is a JSON array) has its top-level model field — a
field other than messages — changed in the forwarded body, so not every other
top-level field is preserved. -/
theorem model_field_changed :
    lookupKey overrideBody "messages" = some (Json.arr []) ∧
    lookupKey overrideBody "model" = some (Json.str "gpt-oss-120b") ∧
    lookupKey (transformBody overrideCfg "English" overrideBody) "model" =
      some (Json.str "kimi-k2-5") ∧
    ("kimi-k2-5" : String) ≠ "gpt-oss-120b" :=
  ⟨rfl, rfl, rfl, by decide⟩

/-- C1 (amended): for a body whose messages field is a JSON array of length
N, the forwarded body's messages is the system message (role "system",
content the rendered prompt) followed by the original N messages in order,
and every other top-level field is preserved, except model: when the model
override is configured model is replaced, and with the override unset model
is preserved too. -/
theorem forwarded_body_shape (cfg : FnConfig) (language : String)
    (body : List (String × Json)) (msgs : List Json)
    (hmsg : lookupKey body "messages" = some (Json.arr msgs)) :
    lookupKey (transformBody cfg language body) "messages" =
      some (Json.arr
        (Json.obj [("role", Json.str "system"),
                   ("content", Json.str (renderPrompt cfg language))] :: msgs)) ∧
    (∀ k, k ≠ "messages" → k ≠ "model" →
      lookupKey (transformBody cfg language body) k = lookupKey body k) ∧
    (cfg.tinfoilModel ≠ "" →
      lookupKey (transformBody cfg language body) "model" =
        some (Json.str cfg.tinfoilModel)) ∧
    (cfg.tinfoilModel = "" →
      lookupKey (transformBody cfg language body) "model" =
        lookupKey body "model") := by
  have hv : messagesAsArray (lookupKey body "messages") = msgs := by
    rw [hmsg]
    rfl
  unfold transformBody
  dsimp only
  rw [hv]
  by_cases hov : cfg.tinfoilModel = ""
  · rw [if_neg (fun hc => hc hov)]
    refine ⟨lookupKey_setKey_self _ _ _, ?_, fun h => absurd hov h, ?_⟩
    · intro k h1 _
      exact lookupKey_setKey_ne _ _ _ _ h1
    · intro _
      exact lookupKey_setKey_ne _ _ _ _ (by decide)
  · rw [if_pos hov]
    refine ⟨?_, ?_, fun _ => lookupKey_setKey_self _ _ _, fun h => absurd h hov⟩
    · rw [lookupKey_setKey_ne _ _ _ _ (by decide : ("messages" : String) ≠ "model")]
      exact lookupKey_setKey_self _ _ _
    · intro k h1 h2
      rw [lookupKey_setKey_ne _ _ _ _ h2]
      exact lookupKey_setKey_ne _ _ _ _ h1

/-- C1 witness: at a concrete body with an empty messages array and no
override, the forwarded messages array is exactly the injected system
message; at the same body with the override configured, the forwarded model
is the override. -/
theorem forwarded_body_shape_witness :
    lookupKey (transformBody plainFnCfg "French" overrideBody) "messages" =
      some (Json.arr
        [Json.obj [("role", Json.str "system"),
                   ("content", Json.str (renderPrompt plainFnCfg "French"))]]) ∧
    lookupKey (transformBody overrideCfg "French" overrideBody) "model" =
      some (Json.str overrideCfg.tinfoilModel) :=
  ⟨(forwarded_body_shape plainFnCfg "French" overrideBody [] rfl).1,
   (forwarded_body_shape overrideCfg "French" overrideBody [] rfl).2.2.1
     (by decide)⟩

/-- C2 (code evaluated at the failing input): a request whose decrypted body
declares model deepseek-r1 while the X-Allowed-Models allow-list is exactly
gpt-oss-120b is not rejected — the Body Processor forwards it upstream with
that model unchanged. -/
theorem allowlist_not_enforced :
    disallowedModelRequest.xAllowedModels = some "gpt-oss-120b" ∧
    fnForwardedModel (chatHandler plainFnCfg disallowedModelRequest) =
      some (Json.str "deepseek-r1") ∧
    fnIsForwarded (chatHandler plainFnCfg disallowedModelRequest) = true ∧
    ("deepseek-r1" : String) ≠ "gpt-oss-120b" :=
  ⟨rfl, rfl, rfl, by decide⟩

/-- C8: with no X-Language header the request is processed with the default
language English — the forwarded body is the transform at language English —
and the prompt-rendering substitution replaces the placeholder exactly once
per occurrence, scanning left to right: it distributes over an occurrence at
the head, leaves a non-occurrence character unchanged, and maps the empty
template to itself; for the built-in default template the rendered prompt is
the default prompt with English substituted. -/
theorem default_language_prompt (cfg : FnConfig) (r : FnRequest)
    (b : List (String × Json))
    (hm : r.method = "POST") (hl : r.xLanguage = none) (hb : r.body = some b)
    (hu : cfg.inferenceURL ≠ "") (hk : cfg.apiKey ≠ "") :
    fnForwardedBody (chatHandler cfg r) = some (transformBody cfg "English" b) ∧
    (∀ t, charsReplaceAll languagePlaceholder.data ("English" : String).data
        (languagePlaceholder.data ++ t) =
      ("English" : String).data ++
        charsReplaceAll languagePlaceholder.data ("English" : String).data t) ∧
    (∀ c t, (∀ u, c :: t ≠ languagePlaceholder.data ++ u) →
      charsReplaceAll languagePlaceholder.data ("English" : String).data (c :: t) =
        c :: charsReplaceAll languagePlaceholder.data ("English" : String).data t) ∧
    charsReplaceAll languagePlaceholder.data ("English" : String).data [] = [] ∧
    (cfg.systemPromptTemplate = "" →
      renderPrompt cfg "English" =
        "You are a helpful assistant. Always respond in English.") := by
  refine ⟨?_, ?_, ?_, rfl, ?_⟩
  · unfold chatHandler
    rw [if_neg (by rw [hm]; exact fun h => h rfl)]
    dsimp only
    rw [hl]
    rw [show (if headerGet (none : Option String) = "" then "English"
          else headerGet none) = "English" from rfl]
    rw [if_neg (by decide :
      ¬(maxLanguageLen < ("English" : String).utf8ByteSize ∨
        languageRegexMatch "English" = false))]
    rw [hb]
    dsimp only
    rw [if_neg hu, if_neg hk]
    rfl
  · intro t
    exact charsReplaceAll_cons_match _ _ t (by decide)
  · intro c t h
    exact charsReplaceAll_cons_no_match _ _ c t h
  · intro h
    unfold renderPrompt
    rw [if_pos h]
    rfl

/-- C8 witness: the concrete request with no X-Language header and the
built-in template renders the default prompt with English substituted. -/
theorem default_language_prompt_witness :
    renderPrompt plainFnCfg "English" =
      "You are a helpful assistant. Always respond in English." :=
  (default_language_prompt plainFnCfg defaultLanguageRequest
      [("model", Json.str "gpt-oss-120b"), ("messages", Json.arr [])]
      rfl rfl rfl (by decide) (by decide)).2.2.2.2 rfl

/-- C9: for every upstream response relayed by either component, the bytes
written to the caller are exactly the concatenation of the body chunks read
from upstream, in order, with no loss or duplication, and every header and
status event in the relay trace precedes every body write or flush. -/
theorem stream_relay_byte_faithful (resp : UpstreamResponse) :
    writtenBytes (fnRelayResponse resp) = resp.bodyChunks.flatten ∧
    writtenBytes (proxyRelayResponse resp) = resp.bodyChunks.flatten ∧
    fnRelayResponse resp = fnHeaderEvents resp ++ streamEvents resp.bodyChunks ∧
    proxyRelayResponse resp =
      proxyHeaderEvents resp ++ streamEvents resp.bodyChunks ∧
    (∀ e ∈ fnHeaderEvents resp, isBodyEvent e = false) ∧
    (∀ e ∈ proxyHeaderEvents resp, isBodyEvent e = false) ∧
    (∀ e ∈ streamEvents resp.bodyChunks, isBodyEvent e = true) ∧
    RelayEvent.writeStatus resp.status ∈ fnHeaderEvents resp ∧
    RelayEvent.writeStatus resp.status ∈ proxyHeaderEvents resp := by
  refine ⟨?_, ?_, rfl, rfl, fnHeaderEvents_no_body resp,
    proxyHeaderEvents_no_body resp, streamEvents_all_body resp.bodyChunks,
    writeStatus_mem_fnHeaderEvents resp, writeStatus_mem_proxyHeaderEvents resp⟩
  · unfold fnRelayResponse
    rw [writtenBytes_append, writtenBytes_eq_nil _ (fnHeaderEvents_no_body resp),
      writtenBytes_streamEvents]
    rfl
  · unfold proxyRelayResponse
    rw [writtenBytes_append, writtenBytes_eq_nil _ (proxyHeaderEvents_no_body resp),
      writtenBytes_streamEvents]
    rfl

/-- C9 witness: the concrete three-chunk streamed response round-trips its
bytes through both relays. -/
theorem stream_relay_byte_faithful_witness :
    writtenBytes (fnRelayResponse sampleResponse) =
      sampleResponse.bodyChunks.flatten ∧
    writtenBytes (proxyRelayResponse sampleResponse) =
      sampleResponse.bodyChunks.flatten :=
  ⟨(stream_relay_byte_faithful sampleResponse).1,
   (stream_relay_byte_faithful sampleResponse).2.1⟩

end SystemPromptFunctions
